import Mathlib

/-!
Verification of the lazy-loading, arena-backed file tree of the TUI-Editor
repository.

The model shallowly embeds:
* the arena data model (`Folder`, `File`, slotmap stores with never-removed
  keys, modelled as lists indexed by insertion order),
* `FileSystem::init_folder` from `src/state/filesystem.rs` (guarded
  integration) and the legacy `Filetree::init_folder` from
  `src/filesystem/tree.rs` (unguarded),
* the directory-scan task spawned by `load_folder` (entry enumeration with
  the `while let Ok(Some(_))` loop, classification, independent sorting by
  `compare_names`, single-event emission),
* the render traversal `FileTree::recurse_lines` from
  `src/widgets/filetree.rs`, including the `.git` hidden-folder filter of
  `Folder::hidden` (`src/filesystem/folder.rs`).

Machine integers that appear (`u16` line budgets, `usize` lengths) never
overflow in the modelled operations and are modelled as `Nat`;
`saturating_sub` is `Nat` subtraction.
-/

namespace Tui

/-- A filesystem path (`std::path::PathBuf`), modelled as its list of
components. -/
abbrev RPath := List String

/-- `path.file_name().unwrap_or_default()`: the final component of the
path, or the empty string. -/
def fileName (p : RPath) : String := p.getLast?.getD ""

/-- `compare_names` (`src/state/filesystem.rs:116` and
`src/filesystem/tree.rs:161`): compare two paths by `Ord::cmp` on their raw
final filename component only, not on the full path. -/
def compareNames (a b : RPath) : Ordering :=
  compareOfLessAndEq (fileName a) (fileName b)

/- The source's `FolderId` and `FileId` are keys into the two arena
stores. `slotmap` keys are generational, but no removal exists anywhere in
the program, so keys are faithfully modelled as `Nat` insertion indices
into the store (written `Nat` rather than through an abbreviation so that
arithmetic automation sees them). -/

/-- `Folder` (`src/filesystem/folder.rs`). The `open` field is renamed
`isOpen` because `open` is a Lean keyword. -/
structure Folder where
  path : RPath
  name : String
  child_files : List Nat
  child_folders : List Nat
  isOpen : Bool
  init : Bool
deriving DecidableEq, Repr

/-- `Folder::new`: display name derived from the path's final component;
empty children, closed, uninitialized. -/
def Folder.new (path : RPath) : Folder :=
  { path := path, name := fileName path, child_files := [],
    child_folders := [], isOpen := false, init := false }

instance : Inhabited Folder := ⟨Folder.new []⟩

/-- `File` (`src/filesystem/file.rs`): a path plus a devicon. The icon is
computed by the external `devicons` crate as a pure function of the path
(an opaque lookup table), so it adds no distinguishing state and is not
carried by the model. -/
structure File where
  path : RPath
deriving DecidableEq, Repr

/-- `File::new`. -/
def File.new (path : RPath) : File := { path := path }

instance : Inhabited File := ⟨File.new []⟩

/-- `HashMap::insert`: the new binding replaces any previous binding of the
same key; lookup is by key equality. -/
def mapInsert (m : List (RPath × Nat)) (k : RPath) (v : Nat) :
    List (RPath × Nat) :=
  (k, v) :: m.filter (fun p => !(p.1 == k))

/-- The arena state of `FileSystem` (`src/state/filesystem.rs:26`). -/
structure FileSystem where
  root : Nat
  folders : List Folder
  files : List File
  open_buffers : List Nat
  file_paths : List (RPath × Nat)
  folder_paths : List (RPath × Nat)
deriving DecidableEq, Repr

/-- `FileSystem::new`: a single root placeholder folder, everything else
empty. The first insertion into the empty store yields key `0`. -/
def FileSystem.new (root_path : RPath) : FileSystem :=
  { root := 0, folders := [Folder.new root_path], files := [],
    open_buffers := [], file_paths := [], folder_paths := [] }

/-- `FileSystem::init_folder` (`src/state/filesystem.rs:95`): guarded
integration of a scan result. Fresh slotmap keys are the consecutive
indices starting at the store's current length, in payload order (files
inserted first, then folders, each by `into_iter`). Rust's
`self.folders[id]` panics on a dead key; the model reads through `getD`,
and theorems about calls the program can actually make carry the liveness
hypothesis `id < folders.length`. -/
def FileSystem.initFolder (fs : FileSystem) (id : Nat)
    (files : List File) (folders : List Folder) : FileSystem :=
  if (fs.folders.getD id default).init then fs
  else
    let file_ids := List.range' fs.files.length files.length
    let folder_ids := List.range' fs.folders.length folders.length
    let folders1 := fs.folders ++ folders
    let f := folders1.getD id default
    let f1 := { f with child_files := file_ids, child_folders := folder_ids,
                       init := true }
    { fs with
      files := fs.files ++ files
      folders := folders1.set id f1
      folder_paths := mapInsert fs.folder_paths f1.path id }

/-- The arena state of the legacy `Filetree` (`src/filesystem/tree.rs:22`);
the event-channel sender is not part of the arena state. -/
structure Filetree where
  isOpen : Bool
  width : Nat
  root : Nat
  folders : List Folder
  files : List File
  paths : List (RPath × Nat)
deriving DecidableEq, Repr

/-- `Filetree::init_folder` (`src/filesystem/tree.rs:59`): identical to
`FileSystem::init_folder` except that it performs NO `init` guard. -/
def Filetree.initFolder (ft : Filetree) (id : Nat)
    (files : List File) (folders : List Folder) : Filetree :=
  let file_ids := List.range' ft.files.length files.length
  let folder_ids := List.range' ft.folders.length folders.length
  let folders1 := ft.folders ++ folders
  let f := folders1.getD id default
  let f1 := { f with child_files := file_ids, child_folders := folder_ids,
                     init := true }
  { ft with
    files := ft.files ++ files
    folders := folders1.set id f1
    paths := mapInsert ft.paths f1.path id }

/-- One directory entry yielded by enumeration: its path and the result of
`path.is_dir()`. -/
structure Entry where
  path : RPath
  isDir : Bool
deriving DecidableEq, Repr

/-- One step of the `entries.next_entry().await` stream: `Err(_)`,
`Ok(None)` (exhaustion) or `Ok(Some(entry))`. -/
abbrev StreamItem := Except Unit (Option Entry)

/-- The `while let Ok(Some(entry))` loop (`src/state/filesystem.rs:68`):
collect entries until the first item that is not `Ok(Some(_))`, silently
stopping there. -/
def collectEntries : List StreamItem → List Entry
  | [] => []
  | Except.ok (some e) :: rest => e :: collectEntries rest
  | _ => []

/-- The boolean order used to model `sort_by(compare_names)`: Rust's
stable sort produces a sequence in which no element compares `Greater`
to a later one. -/
def nameLe (a b : RPath) : Bool := !(compareNames a b == Ordering.gt)

/-- Stable insertion of `a` into an already sorted list: `a` is placed
before the first element it is less-or-equal to, hence after nothing it
must precede and before later-inserted equals. -/
def insertSorted {A : Type} (le : A → A → Bool) (a : A) : List A → List A
  | [] => [a]
  | b :: l => if le a b then a :: b :: l else b :: insertSorted le a l

/-- `Vec::sort_by`: a stable comparison sort. A stable sort's output is
uniquely determined by the comparator and the input order, so stable
insertion sort is an exact model of Rust's (merge-based) stable sort
(`List.mergeSort` is not kernel-reducible, which witnesses need). -/
def sortBy {A : Type} (le : A → A → Bool) : List A → List A
  | [] => []
  | a :: l => insertSorted le a (sortBy le l)

/-- The `EditorEvent::FolderLoaded` payload
(`src/state/events.rs:12`). -/
structure FolderLoaded where
  id : Nat
  files : List File
  folders : List Folder
deriving DecidableEq, Repr

/-- The scan task spawned by `FileSystem::load_folder`
(`src/state/filesystem.rs:60`), as a function of the outcome of
`tokio::fs::read_dir` and of the entry stream it yields: collect entries
until the first failure or exhaustion, classify each as file or folder in
encounter order, sort the two lists independently by `compare_names`, and
emit one `FolderLoaded` event; on `read_dir` failure emit nothing (the
error is only logged). `load_folder` itself takes `&self` and mutates no
arena state. `scanFiles` is the file list built by the entry loop in
encounter order among non-directories, then sorted by `compare_names`. -/
def scanFiles (stream : List StreamItem) : List File :=
  sortBy (fun a b => nameLe a.path b.path)
    (((collectEntries stream).filter (fun e => !e.isDir)).map
      (fun e => File.new e.path))

/-- The folder list built by the same loop, sorted independently of the
file list. -/
def scanFolders (stream : List StreamItem) : List Folder :=
  sortBy (fun a b => nameLe a.path b.path)
    (((collectEntries stream).filter (fun e => e.isDir)).map
      (fun e => Folder.new e.path))

def scanFolder (id : Nat) (readDir : Except Unit (List StreamItem)) :
    Option FolderLoaded :=
  match readDir with
  | Except.error _ => none
  | Except.ok stream =>
    some { id := id, files := scanFiles stream,
           folders := scanFolders stream }

/-- `nameLe` holds exactly when the raw final filename components are in
nondecreasing order: `Ord::cmp` (modelled by `compareOfLessAndEq`) does
not answer `Greater` exactly when the first name is less or equal. -/
theorem nameLe_iff (p q : RPath) :
    nameLe p q = true ↔ fileName p ≤ fileName q := by
  unfold nameLe compareNames compareOfLessAndEq
  split_ifs with h1 h2
  · exact iff_of_true (by decide) (le_of_lt h1)
  · exact iff_of_true (by decide) (le_of_eq h2)
  · exact iff_of_false (by decide) (fun hle => h1 (lt_of_le_of_ne hle h2))

theorem nameLe_trans {p q r : RPath} (h1 : nameLe p q = true)
    (h2 : nameLe q r = true) : nameLe p r = true :=
  (nameLe_iff p r).2 (le_trans ((nameLe_iff p q).1 h1) ((nameLe_iff q r).1 h2))

theorem nameLe_total (p q : RPath) : (nameLe p q || nameLe q p) = true := by
  rcases le_total (fileName p) (fileName q) with h | h
  · rw [(nameLe_iff p q).2 h]; rfl
  · rw [(nameLe_iff q p).2 h, Bool.or_true]

/-- Membership in a stable insertion. -/
theorem mem_insertSorted {A : Type} (le : A → A → Bool) (a x : A)
    (l : List A) : x ∈ insertSorted le a l ↔ x = a ∨ x ∈ l := by
  induction l with
  | nil => simp [insertSorted]
  | cons b l ih =>
    simp only [insertSorted]
    split_ifs with h
    · simp [List.mem_cons]
    · simp only [List.mem_cons, ih]
      tauto

/-- The stable sort permutes nothing in or out. -/
theorem mem_sortBy {A : Type} (le : A → A → Bool) (x : A) (l : List A) :
    x ∈ sortBy le l ↔ x ∈ l := by
  induction l with
  | nil => exact Iff.rfl
  | cons a l ih =>
    simp only [sortBy, mem_insertSorted, ih, List.mem_cons]

/-- Inserting into a sorted list keeps it sorted, for a transitive total
boolean order. -/
theorem pairwise_insertSorted {A : Type} (le : A → A → Bool)
    (htrans : ∀ a b c, le a b = true → le b c = true → le a c = true)
    (htotal : ∀ a b, (le a b || le b a) = true) (a : A) (l : List A)
    (h : List.Pairwise (fun x y => le x y = true) l) :
    List.Pairwise (fun x y => le x y = true) (insertSorted le a l) := by
  induction l with
  | nil => simp [insertSorted]
  | cons b l ih =>
    rw [List.pairwise_cons] at h
    obtain ⟨hb, hl⟩ := h
    simp only [insertSorted]
    split_ifs with hab
    · rw [List.pairwise_cons]
      constructor
      · intro x hx
        rcases List.mem_cons.1 hx with rfl | hx
        · exact hab
        · exact htrans _ _ _ hab (hb x hx)
      · exact List.pairwise_cons.2 ⟨hb, hl⟩
    · have hba : le b a = true := by
        have ht := htotal a b
        rw [Bool.or_eq_true] at ht
        rcases ht with h1 | h1
        · exact absurd h1 hab
        · exact h1
      rw [List.pairwise_cons]
      constructor
      · intro x hx
        rcases (mem_insertSorted le a x l).1 hx with rfl | hx
        · exact hba
        · exact hb x hx
      · exact ih hl

/-- The stable sort sorts, for a transitive total boolean order. -/
theorem pairwise_sortBy {A : Type} (le : A → A → Bool)
    (htrans : ∀ a b c, le a b = true → le b c = true → le a c = true)
    (htotal : ∀ a b, (le a b || le b a) = true) (l : List A) :
    List.Pairwise (fun x y => le x y = true) (sortBy le l) := by
  induction l with
  | nil => exact List.Pairwise.nil
  | cons a l ih => exact pairwise_insertSorted le htrans htotal a _ ih

/-- The file list any scan emits is sorted by raw filename. -/
theorem scanFiles_sorted (stream : List StreamItem) :
    List.Pairwise (fun a b : File => nameLe a.path b.path = true)
      (scanFiles stream) := by
  unfold scanFiles
  exact pairwise_sortBy (fun (a b : File) => nameLe a.path b.path)
    (fun a b c hab hbc => nameLe_trans hab hbc)
    (fun a b => nameLe_total a.path b.path) _

/-- The folder list any scan emits is sorted by raw filename. -/
theorem scanFolders_sorted (stream : List StreamItem) :
    List.Pairwise (fun a b : Folder => nameLe a.path b.path = true)
      (scanFolders stream) := by
  unfold scanFolders
  exact pairwise_sortBy (fun (a b : Folder) => nameLe a.path b.path)
    (fun a b c hab hbc => nameLe_trans hab hbc)
    (fun a b => nameLe_total a.path b.path) _

/-- One dispatched `load_folder` scan together with the consumer-side
processing of its event (`App::handle_editor_event` calls `init_folder`
on `FolderLoaded`, `src/app.rs:71`): a scan that produced no event leaves
the arena untouched. -/
def FileSystem.processScan (fs : FileSystem) (id : Nat)
    (readDir : Except Unit (List StreamItem)) : FileSystem :=
  match scanFolder id readDir with
  | none => fs
  | some ev => fs.initFolder ev.id ev.files ev.folders

/-- A `load_folder` dispatch: the target id and the filesystem's answer to
the scan (captured environment). -/
structure ScanOp where
  id : Nat
  readDir : Except Unit (List StreamItem)
deriving Repr

/-- Apply a sequence of completed scans in integration order. -/
def applyScans (fs : FileSystem) : List ScanOp → FileSystem
  | [] => fs
  | op :: ops => applyScans (fs.processScan op.id op.readDir) ops

/-- Every scan in the sequence targets an id that is a live key of the
folder store when its result is integrated (ids handed to `load_folder`
always come from the arena, and keys are never removed). -/
def validScans (fs : FileSystem) : List ScanOp → Bool
  | [] => true
  | op :: ops =>
    decide (op.id < fs.folders.length) &&
    validScans (fs.processScan op.id op.readDir) ops

/-- A raw `init_folder` call with an arbitrary payload. -/
structure InitOp where
  id : Nat
  files : List File
  folders : List Folder
deriving DecidableEq, Repr

/-- Apply a sequence of `init_folder` calls. `load_folder` (`&self`) and
the render traversal mutate nothing, so these are the only state-changing
operations after construction. -/
def applyInits (fs : FileSystem) : List InitOp → FileSystem
  | [] => fs
  | op :: ops => applyInits (fs.initFolder op.id op.files op.folders) ops

/-- All identifiers stored in the arena are live keys of their store:
`root`, every folder's `child_folders`/`child_files`, every binding in
`folder_paths`. `i < length` is exactly `(store.get? i).isSome`, i.e. the
arena lookup does not hit the missing-key (panic) branch. -/
def liveIds (fs : FileSystem) : Bool :=
  decide (fs.root < fs.folders.length) &&
  fs.folders.all (fun f =>
    f.child_folders.all (fun i => decide (i < fs.folders.length)) &&
    f.child_files.all (fun i => decide (i < fs.files.length))) &&
  fs.folder_paths.all (fun p => decide (p.2 < fs.folders.length))

/-- Abstraction of one rendered `ratatui` line: which record produced it
and at which indent depth. -/
inductive RLine where
  | folderLine (depth : Nat) (isOpen : Bool) (name : String)
  | fileLine (depth : Nat) (name : String)
deriving DecidableEq, Repr

/-- `Folder::line` (`src/filesystem/folder.rs:45`). -/
def Folder.line (f : Folder) (depth : Nat) : RLine :=
  RLine.folderLine depth f.isOpen f.name

/-- `File::line` (`src/filesystem/file.rs:47`). -/
def File.line (f : File) (depth : Nat) : RLine :=
  RLine.fileLine depth (fileName f.path)

/-- `Folder::hidden` (`src/filesystem/folder.rs:37`). -/
def Folder.hidden (f : Folder) : Bool :=
  match f.name with
  | ".git" => true
  | _ => false

/-- The `child_files` loop of `FileTree::recurse_lines`
(`src/widgets/filetree.rs:48`). Returns the pushed lines and the remaining
budget (`u16`, `saturating_sub` modelled by `Nat` subtraction). -/
def fileLoop (fs : FileSystem) (ids : List Nat) (depth : Nat)
    (remaining : Nat) : List RLine × Nat :=
  match ids with
  | [] => ([], remaining)
  | fid :: rest =>
    if remaining = 0 then ([], remaining)
    else
      let file := fs.files.getD fid default
      let (ls, r) := fileLoop fs rest depth (remaining - 1)
      (file.line depth :: ls, r)

/-- The `child_folders` loop of `FileTree::recurse_lines`
(`src/widgets/filetree.rs:30`), parameterized by the recursive call `rec`
(taking the child folder id, the next depth and the current remaining
budget): stop when the budget is exhausted, skip hidden folders entirely,
push the folder's line, recurse into it when it is open, and only then
charge the folder's own line to the budget. Written as a higher-order
structural recursion so that it is kernel-computable. -/
def folderLoopRec (rec : Nat → Nat → Nat → List RLine × Nat)
    (fs : FileSystem) (ids : List Nat) (depth remaining : Nat) :
    List RLine × Nat :=
  match ids with
  | [] => ([], remaining)
  | fid :: rest =>
    if remaining = 0 then ([], remaining)
    else
      let folder := fs.folders.getD fid default
      if folder.hidden then folderLoopRec rec fs rest depth remaining
      else
        let c := if folder.isOpen then rec fid (depth + 1) remaining
          else ([], remaining)
        let d := folderLoopRec rec fs rest depth (c.2 - 1)
        (folder.line depth :: (c.1 ++ d.1), d.2)

/-- `FileTree::recurse_lines` (`src/widgets/filetree.rs:21`): the folder
loop over `child_folders`, then the file loop over `child_files`. The
traversal takes `&self`/`&FileSystem` in Rust and the model is a pure
function of the state: it mutates nothing. The Rust recursion is
unbounded; `fuel` bounds the nesting depth explored (any fuel at least the
open-nesting depth of the arena reproduces the Rust behaviour). -/
def recurseLines (fuel : Nat) (fs : FileSystem) (id : Nat)
    (depth remaining : Nat) : List RLine × Nat :=
  match fuel with
  | 0 => ([], remaining)
  | fuel + 1 =>
    let folder := fs.folders.getD id default
    let a := folderLoopRec (fun i dep rr => recurseLines fuel fs i dep rr)
      fs folder.child_folders depth remaining
    let b := fileLoop fs folder.child_files depth a.2
    (a.1 ++ b.1, b.2)

/-- The folder loop at a given fuel level. -/
def folderLoop (fuel : Nat) (fs : FileSystem) (ids : List Nat)
    (depth remaining : Nat) : List RLine × Nat :=
  folderLoopRec (fun i dep rr => recurseLines fuel fs i dep rr)
    fs ids depth remaining

/-- Unfolding equation of the folder loop on an empty child list. -/
theorem folderLoop_nil (fuel : Nat) (fs : FileSystem) (depth r : Nat) :
    folderLoop fuel fs [] depth r = ([], r) := rfl

/-- Unfolding equation of the folder loop on a nonempty child list. -/
theorem folderLoop_cons (fuel : Nat) (fs : FileSystem) (fid : Nat)
    (rest : List Nat) (depth r : Nat) :
    folderLoop fuel fs (fid :: rest) depth r =
    (if r = 0 then ([], r)
     else
       let folder := fs.folders.getD fid default
       if folder.hidden then folderLoop fuel fs rest depth r
       else
         let c := if folder.isOpen
           then recurseLines fuel fs fid (depth + 1) r
           else ([], r)
         let d := folderLoop fuel fs rest depth (c.2 - 1)
         (folder.line depth :: (c.1 ++ d.1), d.2)) := rfl

/-- Unfolding equation of the traversal at positive fuel. -/
theorem recurseLines_succ (fuel : Nat) (fs : FileSystem)
    (id depth r : Nat) :
    recurseLines (fuel + 1) fs id depth r =
    (let folder := fs.folders.getD id default
     let a := folderLoop fuel fs folder.child_folders depth r
     let b := fileLoop fs folder.child_files depth a.2
     (a.1 ++ b.1, b.2)) := rfl

/-- A file loop with no budget emits nothing. -/
theorem fileLoop_zero (fs : FileSystem) (ids : List Nat) (depth : Nat) :
    fileLoop fs ids depth 0 = ([], 0) := by
  cases ids with
  | nil => rfl
  | cons a l => rfl

/-- A folder loop with no budget emits nothing. -/
theorem folderLoop_zero (fuel : Nat) (fs : FileSystem) (ids : List Nat)
    (depth : Nat) : folderLoop fuel fs ids depth 0 = ([], 0) := by
  cases ids with
  | nil => rfl
  | cons a l => rfl

/-- A traversal with no budget emits nothing. -/
theorem recurseLines_zero (fuel : Nat) (fs : FileSystem) (id depth : Nat) :
    recurseLines fuel fs id depth 0 = ([], 0) := by
  cases fuel with
  | zero => rfl
  | succ n =>
    rw [recurseLines_succ]
    dsimp only
    rw [folderLoop_zero, fileLoop_zero]
    rfl

/-- The file loop never overshoots: it emits exactly the budget it
consumes, and when any budget remains it consumed one line per file. -/
theorem fileLoop_spec (fs : FileSystem) (ids : List Nat) (depth : Nat) :
    ∀ r : Nat,
      (fileLoop fs ids depth r).1.length + (fileLoop fs ids depth r).2 ≤ r ∧
      (0 < (fileLoop fs ids depth r).2 →
        (fileLoop fs ids depth r).1.length
          + (fileLoop fs ids depth r).2 = r) := by
  induction ids with
  | nil => intro r; simp [fileLoop]
  | cons a l ih =>
    intro r
    by_cases hr : r = 0
    · subst hr; simp [fileLoop]
    · obtain ⟨hb, himp⟩ := ih (r - 1)
      simp only [fileLoop]
      rw [if_neg hr]
      dsimp only
      simp only [List.length_cons]
      constructor
      · omega
      · intro hpos
        have := himp hpos
        omega

/-- The folder loop, assuming the recursion at the same fuel satisfies the
budget contract: it can overshoot the budget by at most `fuel + 1` lines
(one unbudgeted folder line per nesting level), and when any budget
remains it emitted exactly the consumed budget. -/
theorem folderLoop_spec_of (fuel : Nat)
    (hrec : ∀ (fs : FileSystem) (id depth r : Nat),
      (recurseLines fuel fs id depth r).1.length ≤ r + fuel ∧
      (0 < (recurseLines fuel fs id depth r).2 →
        (recurseLines fuel fs id depth r).1.length
          + (recurseLines fuel fs id depth r).2 = r)) :
    ∀ (fs : FileSystem) (ids : List Nat) (depth r : Nat),
      (folderLoop fuel fs ids depth r).1.length ≤ r + fuel + 1 ∧
      (0 < (folderLoop fuel fs ids depth r).2 →
        (folderLoop fuel fs ids depth r).1.length
          + (folderLoop fuel fs ids depth r).2 = r) := by
  intro fs ids depth
  induction ids with
  | nil => intro r; simp [folderLoop_nil]
  | cons fid rest ih =>
    intro r
    by_cases hr : r = 0
    · subst hr
      rw [folderLoop_zero]
      simp
    · rw [folderLoop_cons, if_neg hr]
      dsimp only
      by_cases hh : (fs.folders.getD fid default).hidden = true
      · rw [if_pos hh]
        exact ih r
      · rw [if_neg hh]
        dsimp only
        set c := if (fs.folders.getD fid default).isOpen
          then recurseLines fuel fs fid (depth + 1) r
          else ([], r) with hcdef
        have hcspec : c.1.length ≤ r + fuel ∧
            (0 < c.2 → c.1.length + c.2 = r) := by
          rw [hcdef]
          split_ifs with ho
          · exact hrec fs fid (depth + 1) r
          · exact ⟨by simp, fun hp => by simp⟩
        obtain ⟨hres_b, hres_e⟩ := ih (c.2 - 1)
        constructor
        · simp only [List.length_cons, List.length_append]
          by_cases hcz : c.2 = 0
          · have hrest0 : folderLoop fuel fs rest depth (c.2 - 1)
                = ([], 0) := by
              rw [hcz]
              exact folderLoop_zero fuel fs rest depth
            rw [hrest0]
            simp only [List.length_nil]
            have := hcspec.1
            omega
          · have hceq := hcspec.2 (Nat.pos_of_ne_zero hcz)
            omega
        · intro hpos
          simp only [List.length_cons, List.length_append]
          have heq2 := hres_e hpos
          have hcpos : 0 < c.2 := by omega
          have hceq := hcspec.2 hcpos
          omega

/-- The full budget contract of the render traversal: at most
`budget + fuel` lines (the overshoot is bounded by the nesting depth
explored), and exact budget accounting while the budget is not
exhausted. -/
theorem recurseLines_spec (fuel : Nat) :
    ∀ (fs : FileSystem) (id depth r : Nat),
      (recurseLines fuel fs id depth r).1.length ≤ r + fuel ∧
      (0 < (recurseLines fuel fs id depth r).2 →
        (recurseLines fuel fs id depth r).1.length
          + (recurseLines fuel fs id depth r).2 = r) := by
  induction fuel with
  | zero =>
    intro fs id depth r
    simp [recurseLines]
  | succ n ih =>
    intro fs id depth r
    have hfold := folderLoop_spec_of n ih fs
      (fs.folders.getD id default).child_folders depth r
    rw [recurseLines_succ]
    dsimp only
    obtain ⟨ha_b, ha_e⟩ := hfold
    obtain ⟨hb_b, hb_e⟩ := fileLoop_spec fs
      (fs.folders.getD id default).child_files depth
      (folderLoop n fs (fs.folders.getD id default).child_folders
        depth r).2
    constructor
    · simp only [List.length_append]
      by_cases haz : (folderLoop n fs
          (fs.folders.getD id default).child_folders depth r).2 = 0
      · have hb0 : fileLoop fs (fs.folders.getD id default).child_files
            depth (folderLoop n fs
              (fs.folders.getD id default).child_folders depth r).2
            = ([], 0) := by
          rw [haz]
          exact fileLoop_zero fs _ depth
        rw [hb0]
        simp only [List.length_nil]
        omega
      · have := ha_e (Nat.pos_of_ne_zero haz)
        omega
    · intro hpos
      have hb_eq := hb_e hpos
      have hapos : 0 < (folderLoop n fs
          (fs.folders.getD id default).child_folders depth r).2 := by
        omega
      have ha_eq := ha_e hapos
      simp only [List.length_append]
      omega

/-- A concrete arena: the root's only child folder `a` is open and holds
one file, so with a budget of 1 line the traversal emits 2 lines (the
folder's own line is charged to the budget only after its subtree). -/
def exRenderFs : FileSystem :=
  { root := 0,
    folders := [{ path := ["r"], name := "r", child_files := [],
                  child_folders := [1], isOpen := true, init := true },
                { path := ["r", "a"], name := "a", child_files := [0],
                  child_folders := [], isOpen := true, init := true }],
    files := [File.new ["r", "a", "f.txt"]],
    open_buffers := [], file_paths := [], folder_paths := [] }

/-- **C6 counterexample**: with line budget `b = 1` the traversal emits
2 lines, so it does not emit at most `b` lines in total. -/
theorem c6_budget_overrun :
    ¬((recurseLines 2 exRenderFs exRenderFs.root 0 1).1.length ≤ 1) := by
  decide

/-- **C6 (amended)** Traversal contract: the traversal (a pure function of
the arena — it mutates no `open`/`init` flag) enumerates, per folder, the
non-hidden `child_folders` then the `child_files` in stored order,
recursing only into open folders (this is the shape of `recurseLines`);
each loop emits nothing once the budget hits zero, and a zero budget
yields no lines at all; but the total emitted is bounded only by
`b + fuel` — the budget plus the explored nesting depth — not by `b`,
because a folder's own line is charged to the budget only after its open
subtree is rendered; while the budget is never exhausted the traversal
emits exactly the lines it charges. -/
theorem c6_traversal_budget (fuel : Nat) (fs : FileSystem)
    (id depth r : Nat) :
    (recurseLines fuel fs id depth r).1.length ≤ r + fuel ∧
    recurseLines fuel fs id depth 0 = ([], 0) ∧
    (0 < (recurseLines fuel fs id depth r).2 →
      (recurseLines fuel fs id depth r).1.length
        + (recurseLines fuel fs id depth r).2 = r) :=
  ⟨(recurseLines_spec fuel fs id depth r).1,
    recurseLines_zero fuel fs id depth,
    (recurseLines_spec fuel fs id depth r).2⟩

/-- **C10** Hidden-folder filtering: a folder is hidden exactly when its
display name is `.git`, and the folder loop of the render traversal skips
a hidden child folder entirely — the loop result is identical to the loop
on the remaining children: no line is emitted for it, its children are
never visited even if it is open, and none of the line budget is
consumed — while nothing removes its id from the parent's stored
`child_folders` list (integration stores the scanned ids unfiltered). -/
theorem c10_hidden_git_skip (f : Folder) (fuel : Nat) (fs : FileSystem)
    (fid : Nat) (rest : List Nat) (depth r : Nat)
    (h : (fs.folders.getD fid default).hidden = true) :
    (f.hidden = true ↔ f.name = ".git") ∧
    folderLoop fuel fs (fid :: rest) depth r
      = folderLoop fuel fs rest depth r := by
  constructor
  · unfold Folder.hidden
    split
    · simp_all
    · simp_all
  · by_cases hr : r = 0
    · rw [hr, folderLoop_zero, folderLoop_zero]
    · rw [folderLoop_cons, if_neg hr]
      dsimp only
      rw [if_pos h]

/-- An arena whose root stores a `.git` child (id 1, open, with a child
file) and a visible child `a` (id 2). -/
def exGitFs : FileSystem :=
  { root := 0,
    folders := [{ path := ["r"], name := "r", child_files := [],
                  child_folders := [1, 2], isOpen := true, init := true },
                { path := ["r", ".git"], name := ".git",
                  child_files := [0], child_folders := [],
                  isOpen := true, init := true },
                { path := ["r", "a"], name := "a", child_files := [],
                  child_folders := [], isOpen := false, init := false }],
    files := [File.new ["r", ".git", "cfg"]],
    open_buffers := [], file_paths := [], folder_paths := [] }

/-- **C10 witness**: at the concrete arena, the `.git` child is skipped:
the loop over `[1, 2]` equals the loop over `[2]` — even though folder 1
is open and has a child file, and its id stays in the root's
`child_folders`. -/
theorem c10_hidden_git_skip_witness :
    (exGitFs.folders.getD 1 default).hidden = true ∧
    (((exGitFs.folders.getD 0 default).hidden = true ↔
        (exGitFs.folders.getD 0 default).name = ".git") ∧
      folderLoop 2 exGitFs [1, 2] 0 5 = folderLoop 2 exGitFs [2] 0 5) :=
  ⟨by decide,
    c10_hidden_git_skip (exGitFs.folders.getD 0 default) 2 exGitFs 1 [2]
      0 5 (by decide)⟩

/-! ## Shared list/arena helper lemmas -/

theorem getD_set_self {α : Type} (l : List α) (i : Nat) (v d : α)
    (h : i < l.length) : (l.set i v).getD i d = v := by
  simp [List.getD_eq_getElem?_getD, List.getElem?_set_self',
    List.getElem?_eq_getElem h]

theorem getD_set_ne {α : Type} (l : List α) {i j : Nat} (v d : α)
    (h : i ≠ j) : (l.set i v).getD j d = l.getD j d := by
  simp [List.getD_eq_getElem?_getD, List.getElem?_set_ne h]

/-- The guard branch: integrating into an already-initialized folder
returns the state unchanged. -/
theorem initFolder_of_init (fs : FileSystem) (id : Nat)
    (files : List File) (folders : List Folder)
    (h : (fs.folders.getD id default).init = true) :
    fs.initFolder id files folders = fs := by
  unfold FileSystem.initFolder
  rw [if_pos h]

/-- After any `init_folder` call on a live id, that folder's `init` flag
is true. -/
theorem init_after_initFolder (fs : FileSystem) (id : Nat)
    (files : List File) (folders : List Folder)
    (hid : id < fs.folders.length) :
    (((fs.initFolder id files folders).folders.getD id default)).init
      = true := by
  by_cases h : (fs.folders.getD id default).init = true
  · rw [initFolder_of_init _ _ _ _ h]; exact h
  · have hb : (fs.folders.getD id default).init = false := by
      simpa using h
    unfold FileSystem.initFolder
    rw [if_neg (by rw [hb]; decide)]
    rw [getD_set_self]
    simp only [List.length_append]
    omega

/-- Unfolded form of the non-guarded branch of `init_folder`. -/
theorem initFolder_of_not_init (fs : FileSystem) (id : Nat)
    (files : List File) (folders : List Folder)
    (hinit : (fs.folders.getD id default).init = false) :
    fs.initFolder id files folders =
    { fs with
      files := fs.files ++ files
      folders := (fs.folders ++ folders).set id
        { (fs.folders ++ folders).getD id default with
          child_files := List.range' fs.files.length files.length,
          child_folders := List.range' fs.folders.length folders.length,
          init := true }
      folder_paths := mapInsert fs.folder_paths
        ((fs.folders ++ folders).getD id default).path id } := by
  unfold FileSystem.initFolder
  rw [if_neg (by rw [hinit]; decide)]

/-- Example states used by the concrete witnesses below. -/
def exNew : FileSystem := FileSystem.new ["r"]

def exFiles1 : List File := [File.new ["r", "x.txt"]]

def exFolders1 : List Folder := [Folder.new ["r", "sub"]]

/-- **C2** Integration postcondition: on a live, not-yet-initialized
folder id, `init_folder` appends every payload file and folder to the
respective store (fresh consecutive identifiers, in payload order),
records exactly those identifiers in order as the folder's
`child_files`/`child_folders`, sets `init`, and maps the folder's path to
`id` in `folder_paths`. -/
theorem c2_init_folder_postcondition (fs : FileSystem) (id : Nat)
    (files : List File) (folders : List Folder)
    (hid : id < fs.folders.length)
    (hinit : (fs.folders.getD id default).init = false) :
    (fs.initFolder id files folders).files = fs.files ++ files ∧
    (fs.initFolder id files folders).folders.length
      = fs.folders.length + folders.length ∧
    (∀ j, j < folders.length →
      (fs.initFolder id files folders).folders.getD
        (fs.folders.length + j) default = folders.getD j default) ∧
    ((fs.initFolder id files folders).folders.getD id default).child_files
      = List.range' fs.files.length files.length ∧
    ((fs.initFolder id files folders).folders.getD id default).child_folders
      = List.range' fs.folders.length folders.length ∧
    ((fs.initFolder id files folders).folders.getD id default).init
      = true ∧
    List.lookup (fs.folders.getD id default).path
      (fs.initFolder id files folders).folder_paths = some id := by
  rw [initFolder_of_not_init fs id files folders hinit]
  have hlive : id < (fs.folders ++ folders).length := by
    simp only [List.length_append]; omega
  have hp : ((fs.folders ++ folders).getD id default).path
      = (fs.folders.getD id default).path := by
    rw [List.getD_append _ _ _ _ hid]
  refine ⟨rfl, ?_, ?_, ?_, ?_, ?_, ?_⟩
  · simp [List.length_set, List.length_append]
  · intro j hj
    rw [getD_set_ne _ _ _ (by omega)]
    rw [List.getD_append_right _ _ _ _ (Nat.le_add_right _ _)]
    rw [Nat.add_sub_cancel_left]
  · rw [getD_set_self _ _ _ _ hlive]
  · rw [getD_set_self _ _ _ _ hlive]
  · rw [getD_set_self _ _ _ _ hlive]
  · dsimp only
    rw [hp]
    simp [mapInsert, List.lookup]

/-- **C2 witness**: the postcondition at a concrete freshly constructed
service. -/
theorem c2_init_folder_postcondition_witness :
    0 < exNew.folders.length ∧
    (exNew.folders.getD 0 default).init = false ∧
    ((exNew.initFolder 0 exFiles1 exFolders1).files
        = exNew.files ++ exFiles1 ∧
      (exNew.initFolder 0 exFiles1 exFolders1).folders.length
        = exNew.folders.length + exFolders1.length ∧
      (∀ j, j < exFolders1.length →
        (exNew.initFolder 0 exFiles1 exFolders1).folders.getD
          (exNew.folders.length + j) default = exFolders1.getD j default) ∧
      ((exNew.initFolder 0 exFiles1 exFolders1).folders.getD 0
          default).child_files
        = List.range' exNew.files.length exFiles1.length ∧
      ((exNew.initFolder 0 exFiles1 exFolders1).folders.getD 0
          default).child_folders
        = List.range' exNew.folders.length exFolders1.length ∧
      ((exNew.initFolder 0 exFiles1 exFolders1).folders.getD 0
          default).init = true ∧
      List.lookup (exNew.folders.getD 0 default).path
        (exNew.initFolder 0 exFiles1 exFolders1).folder_paths = some 0) :=
  ⟨by decide, by decide,
    c2_init_folder_postcondition exNew 0 exFiles1 exFolders1
      (by decide) (by decide)⟩

/-- A legacy `Filetree` whose root folder has been integrated once. -/
def exFt0 : Filetree :=
  { isOpen := false, width := 40, root := 0,
    folders := [Folder.new ["r"]], files := [], paths := [] }

def exFt1 : Filetree := exFt0.initFolder 0 [File.new ["r", "a.txt"]] []

/-- **C1 counterexample**: the claim quotes both `FileSystem::init_folder`
and `Filetree::init_folder` (`src/filesystem/tree.rs:59`). The legacy
`Filetree::init_folder` has no `init` guard: on a folder id that is
already integrated (`init = true` after the first call), a second call
with a different payload is NOT a no-op — it inserts the second payload
into the file store and overwrites the child list. -/
theorem c1_legacy_second_call_mutates :
    (exFt1.folders.getD 0 default).init = true ∧
    exFt1.initFolder 0 [File.new ["r", "b.txt"]] [] ≠ exFt1 := by decide

/-- **C1 (amended)**: for `FileSystem::init_folder`
(`src/state/filesystem.rs:95`, the Tree Service the spec describes), a
second call on a live folder id with any — possibly different — payload
is a pure no-op: the whole arena state is left identical to the state
after the first call. -/
theorem c1_initFolder_idempotent (fs : FileSystem) (id : Nat)
    (files1 : List File) (folders1 : List Folder)
    (files2 : List File) (folders2 : List Folder)
    (hid : id < fs.folders.length) :
    (fs.initFolder id files1 folders1).initFolder id files2 folders2
      = fs.initFolder id files1 folders1 :=
  initFolder_of_init _ _ _ _ (init_after_initFolder fs id files1 folders1 hid)

/-- **C1 witness**: idempotence at a concrete state with a different
second payload. -/
theorem c1_initFolder_idempotent_witness :
    0 < exNew.folders.length ∧
    (exNew.initFolder 0 exFiles1 exFolders1).initFolder 0
        [File.new ["r", "other.txt"]] []
      = exNew.initFolder 0 exFiles1 exFolders1 :=
  ⟨by decide,
    c1_initFolder_idempotent exNew 0 exFiles1 exFolders1
      [File.new ["r", "other.txt"]] [] (by decide)⟩

/-- **C4** Directory-open failure containment: when `read_dir` fails, the
scan emits no event at all, and the scan-plus-integration step leaves the
whole arena state — in particular the target folder's `init` flag and
child lists, and both stores — exactly as it was. -/
theorem c4_open_failure_containment (fs : FileSystem) (id : Nat) :
    scanFolder id (Except.error ()) = none ∧
    fs.processScan id (Except.error ()) = fs :=
  ⟨rfl, rfl⟩

/-- A folder record with `init = true` lies inside the store (the default
record is uninitialized). -/
theorem lt_length_of_init (fs : FileSystem) (id : Nat)
    (h : (fs.folders.getD id default).init = true) :
    id < fs.folders.length := by
  by_contra hge
  push_neg at hge
  rw [List.getD_eq_default _ _ hge] at h
  simp [default, Folder.new] at h

/-- An `init_folder` call for any target leaves the record of an
already-initialized folder id untouched. -/
theorem initFolder_preserves_initialized (fs : FileSystem) (id id' : Nat)
    (files : List File) (folders : List Folder)
    (h : (fs.folders.getD id default).init = true) :
    (fs.initFolder id' files folders).folders.getD id default
      = fs.folders.getD id default := by
  by_cases hg : (fs.folders.getD id' default).init = true
  · rw [initFolder_of_init _ _ _ _ hg]
  · have hb : (fs.folders.getD id' default).init = false := by simpa using hg
    rw [initFolder_of_not_init _ _ _ _ hb]
    dsimp only
    by_cases hiq : id' = id
    · subst hiq
      rw [hb] at h
      cases h
    · rw [getD_set_ne _ _ _ hiq]
      rw [List.getD_append _ _ _ _ (lt_length_of_init fs id h)]

/-- **C7** Init monotonicity: in any state, once a folder's `init` flag is
true, an arbitrary further sequence of `init_folder` calls (the only
arena-mutating operation: `load_folder` takes `&self` and the render
traversal is a pure read) leaves that folder's whole record — in
particular `init` and the `child_files`/`child_folders` arrays —
unchanged, so `init` is never cleared. -/
theorem c7_init_monotone (fs : FileSystem) (ops : List InitOp) (id : Nat)
    (h : (fs.folders.getD id default).init = true) :
    (applyInits fs ops).folders.getD id default
      = fs.folders.getD id default ∧
    ((applyInits fs ops).folders.getD id default).init = true := by
  induction ops generalizing fs with
  | nil => exact ⟨rfl, h⟩
  | cons op ops ih =>
    have hstep := initFolder_preserves_initialized fs id op.id
      op.files op.folders h
    have h2 : ((fs.initFolder op.id op.files op.folders).folders.getD id
        default).init = true := by rw [hstep]; exact h
    have hrec := ih (fs.initFolder op.id op.files op.folders) h2
    exact ⟨hrec.1.trans hstep, hrec.2⟩

/-- The root-initialized example state and a mixed op sequence used by the
witnesses. -/
def exFs1 : FileSystem := exNew.initFolder 0 exFiles1 exFolders1

def exOps : List InitOp :=
  [⟨1, [File.new ["r", "sub", "y.txt"]], []⟩, ⟨0, exFiles1, exFolders1⟩]

/-- **C7 witness**: monotonicity at a concrete state whose root is
integrated, across a sequence containing a scan for another folder and a
duplicate scan for the root. -/
theorem c7_init_monotone_witness :
    (exFs1.folders.getD 0 default).init = true ∧
    ((applyInits exFs1 exOps).folders.getD 0 default
        = exFs1.folders.getD 0 default ∧
      ((applyInits exFs1 exOps).folders.getD 0 default).init = true) :=
  ⟨by decide, c7_init_monotone exFs1 exOps 0 (by decide)⟩

/-- **C8** No cross-contamination: `init_folder` for id `X` leaves every
pre-existing folder record with id different from `X` (hence also
different from the freshly inserted ids, which start at the old store
length) and every pre-existing file record exactly as it was. -/
theorem c8_no_cross_contamination (fs : FileSystem) (id : Nat)
    (files : List File) (folders : List Folder) (j k : Nat)
    (hj : j ≠ id) (hjl : j < fs.folders.length)
    (hkl : k < fs.files.length) :
    (fs.initFolder id files folders).folders.getD j default
      = fs.folders.getD j default ∧
    (fs.initFolder id files folders).files.getD k default
      = fs.files.getD k default := by
  by_cases h : (fs.folders.getD id default).init = true
  · rw [initFolder_of_init _ _ _ _ h]
    exact ⟨rfl, rfl⟩
  · have hb : (fs.folders.getD id default).init = false := by simpa using h
    rw [initFolder_of_not_init _ _ _ _ hb]
    constructor
    · dsimp only
      rw [getD_set_ne _ _ _ (Ne.symm hj)]
      rw [List.getD_append _ _ _ _ hjl]
    · dsimp only
      rw [List.getD_append _ _ _ _ hkl]

/-- **C8 witness**: integrating a payload for folder id 1 leaves folder
record 0 and file record 0 unchanged. -/
theorem c8_no_cross_contamination_witness :
    (0 : Nat) ≠ 1 ∧ 0 < exFs1.folders.length ∧ 0 < exFs1.files.length ∧
    ((exFs1.initFolder 1 exFiles1 exFolders1).folders.getD 0 default
        = exFs1.folders.getD 0 default ∧
      (exFs1.initFolder 1 exFiles1 exFolders1).files.getD 0 default
        = exFs1.files.getD 0 default) :=
  ⟨by decide, by decide, by decide,
    c8_no_cross_contamination exFs1 1 exFiles1 exFolders1 0 0
      (by decide) (by decide) (by decide)⟩

/-- Resolving the block of fresh consecutive identifiers against the
store extended by the payload yields back exactly the payload. -/
theorem map_getD_append {α : Type} (l m : List α) (d : α) :
    (List.range' l.length m.length).map (fun i => (l ++ m).getD i d)
      = m := by
  induction m generalizing l with
  | nil => rfl
  | cons a m ih =>
    simp only [List.length_cons]
    rw [List.range'_succ, List.map_cons]
    congr 1
    · rw [List.getD_append_right _ _ _ _ (le_refl _)]
      simp
    · have h := ih (l ++ [a])
      simp only [List.length_append, List.length_cons, List.length_nil,
        Nat.add_zero] at h
      rw [List.append_assoc] at h
      simpa using h

/-- The `while let` loop stops at the first item that is not
`Ok(Some(_))`: everything after it is dropped. -/
theorem collectEntries_truncates (pre post : List StreamItem)
    (bad : StreamItem)
    (hpre : ∀ x ∈ pre, ∃ e, x = Except.ok (some e))
    (hbad : ∀ e, bad ≠ Except.ok (some e)) :
    collectEntries (pre ++ bad :: post) = collectEntries pre := by
  induction pre with
  | nil =>
    cases bad with
    | error u => rfl
    | ok o =>
      cases o with
      | none => rfl
      | some e => exact absurd rfl (hbad e)
  | cons x pre ih =>
    obtain ⟨e, rfl⟩ := hpre x (List.mem_cons_self x pre)
    simp only [List.cons_append, collectEntries, List.append_eq]
    rw [ih (fun y hy => hpre y (List.mem_cons_of_mem _ hy))]

/-- **C3** Mid-enumeration failure truncates: if the entry stream consists
of successfully enumerated entries `pre`, then a failing (or exhausted)
item `bad`, then arbitrary further items `post`, the scan collects exactly
`pre` — the failing item is not skipped-and-continued past, every
not-yet-seen entry in `post` is silently dropped — and the scan still
emits its single event, equal to the event of scanning `pre` alone, with
both lists sorted. -/
theorem c3_mid_failure_truncates (pre post : List StreamItem)
    (bad : StreamItem) (id : Nat)
    (hpre : ∀ x ∈ pre, ∃ e, x = Except.ok (some e))
    (hbad : ∀ e, bad ≠ Except.ok (some e)) :
    collectEntries (pre ++ bad :: post) = collectEntries pre ∧
    scanFolder id (Except.ok (pre ++ bad :: post))
      = scanFolder id (Except.ok pre) ∧
    (scanFolder id (Except.ok (pre ++ bad :: post))).isSome = true ∧
    List.Pairwise (fun a b : File => nameLe a.path b.path = true)
      (scanFiles (pre ++ bad :: post)) ∧
    List.Pairwise (fun a b : Folder => nameLe a.path b.path = true)
      (scanFolders (pre ++ bad :: post)) := by
  have hc := collectEntries_truncates pre post bad hpre hbad
  refine ⟨hc, ?_, rfl, scanFiles_sorted _, scanFolders_sorted _⟩
  simp only [scanFolder, scanFiles, scanFolders, hc]

/-- A concrete stream that fails mid-enumeration: two good entries, then
an enumeration error, then a further entry that the loop never sees. -/
def exPre : List StreamItem :=
  [Except.ok (some ⟨["r", "b.txt"], false⟩),
   Except.ok (some ⟨["r", "a"], true⟩)]

def exPost : List StreamItem :=
  [Except.ok (some ⟨["r", "dropped.txt"], false⟩)]

/-- **C3 witness**: truncation at a concrete failing stream. -/
theorem c3_mid_failure_truncates_witness :
    (∀ x ∈ exPre, ∃ e, x = Except.ok (some e)) ∧
    (∀ e, (Except.error () : StreamItem) ≠ Except.ok (some e)) ∧
    (collectEntries (exPre ++ Except.error () :: exPost)
        = collectEntries exPre ∧
      scanFolder 0 (Except.ok (exPre ++ Except.error () :: exPost))
        = scanFolder 0 (Except.ok exPre) ∧
      (scanFolder 0 (Except.ok (exPre ++ Except.error () :: exPost))).isSome
        = true ∧
      List.Pairwise (fun a b : File => nameLe a.path b.path = true)
        (scanFiles (exPre ++ Except.error () :: exPost)) ∧
      List.Pairwise (fun a b : Folder => nameLe a.path b.path = true)
        (scanFolders (exPre ++ Except.error () :: exPost))) := by
  have hpre : ∀ x ∈ exPre, ∃ e, x = Except.ok (some e) := by
    intro x hx
    fin_cases hx
    · exact ⟨_, rfl⟩
    · exact ⟨_, rfl⟩
  have hbad : ∀ e, (Except.error () : StreamItem) ≠ Except.ok (some e) :=
    fun e h => Except.noConfusion h
  exact ⟨hpre, hbad,
    c3_mid_failure_truncates exPre exPost (Except.error ()) 0 hpre hbad⟩

/-- **C5** Scanner sort order: every scan emits its file list and its
folder list each sorted by the raw final filename component (two separate
lists, never interleaved — by the shape of the event), and after
integration into a live uninitialized folder, the folder's
`child_folders` and `child_files` resolve through the arena, in stored
order, exactly to those two sorted lists. -/
theorem c5_scan_sort_order (stream : List StreamItem) (fs : FileSystem)
    (id : Nat) (hid : id < fs.folders.length)
    (hinit : (fs.folders.getD id default).init = false) :
    List.Pairwise (fun a b : File => nameLe a.path b.path = true)
      (scanFiles stream) ∧
    List.Pairwise (fun a b : Folder => nameLe a.path b.path = true)
      (scanFolders stream) ∧
    ((fs.initFolder id (scanFiles stream)
          (scanFolders stream)).folders.getD id default).child_folders.map
        (fun i => (fs.initFolder id (scanFiles stream)
          (scanFolders stream)).folders.getD i default)
      = scanFolders stream ∧
    ((fs.initFolder id (scanFiles stream)
          (scanFolders stream)).folders.getD id default).child_files.map
        (fun i => (fs.initFolder id (scanFiles stream)
          (scanFolders stream)).files.getD i default)
      = scanFiles stream := by
  refine ⟨scanFiles_sorted _, scanFolders_sorted _, ?_, ?_⟩
  all_goals
    rw [initFolder_of_not_init _ _ _ _ hinit]
    dsimp only
    rw [getD_set_self _ _ _ _
      (by simp only [List.length_append]; omega)]
    dsimp only
  · have hne : ∀ i ∈ List.range' fs.folders.length
        (scanFolders stream).length,
        ((fs.folders ++ scanFolders stream).set id
            { (fs.folders ++ scanFolders stream).getD id default with
              child_files :=
                List.range' fs.files.length (scanFiles stream).length,
              child_folders :=
                List.range' fs.folders.length (scanFolders stream).length,
              init := true }).getD i default
          = (fs.folders ++ scanFolders stream).getD i default := by
      intro i hi
      have := List.mem_range'_1.1 hi
      exact getD_set_ne _ _ _ (by omega)
    rw [List.map_congr_left hne]
    exact map_getD_append fs.folders (scanFolders stream) default
  · exact map_getD_append fs.files (scanFiles stream) default

/-- The spec's order-preservation example: scanned folder names
`b`, `a`, `C` and files `z.txt`, `a.txt`. -/
def exStream : List StreamItem :=
  [Except.ok (some ⟨["r", "b"], true⟩),
   Except.ok (some ⟨["r", "a"], true⟩),
   Except.ok (some ⟨["r", "C"], true⟩),
   Except.ok (some ⟨["r", "z.txt"], false⟩),
   Except.ok (some ⟨["r", "a.txt"], false⟩)]

/-- **C5 witness**: sortedness and in-order resolution at the spec's
concrete example scan. -/
theorem c5_scan_sort_order_witness :
    0 < exNew.folders.length ∧
    (exNew.folders.getD 0 default).init = false ∧
    (List.Pairwise (fun a b : File => nameLe a.path b.path = true)
        (scanFiles exStream) ∧
      List.Pairwise (fun a b : Folder => nameLe a.path b.path = true)
        (scanFolders exStream) ∧
      ((exNew.initFolder 0 (scanFiles exStream)
            (scanFolders exStream)).folders.getD 0 default).child_folders.map
          (fun i => (exNew.initFolder 0 (scanFiles exStream)
            (scanFolders exStream)).folders.getD i default)
        = scanFolders exStream ∧
      ((exNew.initFolder 0 (scanFiles exStream)
            (scanFolders exStream)).folders.getD 0 default).child_files.map
          (fun i => (exNew.initFolder 0 (scanFiles exStream)
            (scanFolders exStream)).files.getD i default)
        = scanFiles exStream) :=
  ⟨by decide, by decide,
    c5_scan_sort_order exStream exNew 0 (by decide) (by decide)⟩

/-- Propositional reading of `liveIds`. -/
theorem liveIds_iff (fs : FileSystem) : liveIds fs = true ↔
    fs.root < fs.folders.length ∧
    (∀ f ∈ fs.folders,
      (∀ i ∈ f.child_folders, i < fs.folders.length) ∧
      (∀ i ∈ f.child_files, i < fs.files.length)) ∧
    (∀ p ∈ fs.folder_paths, p.2 < fs.folders.length) := by
  simp only [liveIds, Bool.and_eq_true, List.all_eq_true, decide_eq_true_eq]
  rw [and_assoc]

/-- A freshly constructed service has only live identifiers. -/
theorem liveIds_new (root_path : RPath) :
    liveIds (FileSystem.new root_path) = true := by
  apply (liveIds_iff _).2
  refine ⟨by simp [FileSystem.new], ?_, by simp [FileSystem.new]⟩
  intro f hf
  simp only [FileSystem.new, List.mem_singleton] at hf
  subst hf
  simp [Folder.new]

/-- Every folder record a scan emits is a `Folder::new` placeholder: its
child lists are empty. -/
theorem scanFolders_children (stream : List StreamItem) :
    ∀ f ∈ scanFolders stream,
      f.child_folders = [] ∧ f.child_files = [] := by
  intro f hf
  unfold scanFolders at hf
  rw [mem_sortBy] at hf
  obtain ⟨e, he, rfl⟩ := List.mem_map.1 hf
  exact ⟨rfl, rfl⟩

/-- `init_folder` with a live target id and placeholder payload folders
preserves identifier liveness. -/
theorem liveIds_initFolder (fs : FileSystem) (id : Nat)
    (files : List File) (folders : List Folder)
    (hl : liveIds fs = true) (hid : id < fs.folders.length)
    (hpayload : ∀ f ∈ folders, f.child_folders = [] ∧ f.child_files = []) :
    liveIds (fs.initFolder id files folders) = true := by
  obtain ⟨hroot, hfold, hpaths⟩ := (liveIds_iff fs).1 hl
  by_cases hg : (fs.folders.getD id default).init = true
  · rw [initFolder_of_init _ _ _ _ hg]; exact hl
  · have hb : (fs.folders.getD id default).init = false := by simpa using hg
    rw [initFolder_of_not_init _ _ _ _ hb]
    apply (liveIds_iff _).2
    dsimp only
    have hlen : ((fs.folders ++ folders).set id
        { (fs.folders ++ folders).getD id default with
          child_files := List.range' fs.files.length files.length,
          child_folders := List.range' fs.folders.length folders.length,
          init := true }).length = fs.folders.length + folders.length := by
      simp [List.length_set, List.length_append]
    refine ⟨?_, ?_, ?_⟩
    · rw [hlen]; omega
    · intro f hf
      rw [hlen]
      simp only [List.length_append]
      rcases List.mem_or_eq_of_mem_set hf with hmem | rfl
      · rcases List.mem_append.1 hmem with hold | hnew
        · obtain ⟨h1, h2⟩ := hfold f hold
          exact ⟨fun i hi => by have := h1 i hi; omega,
                 fun i hi => by have := h2 i hi; omega⟩
        · obtain ⟨h1, h2⟩ := hpayload f hnew
          rw [h1, h2]
          exact ⟨fun i hi => absurd hi (List.not_mem_nil i),
                 fun i hi => absurd hi (List.not_mem_nil i)⟩
      · constructor
        · intro i hi
          have := List.mem_range'_1.1 hi
          omega
        · intro i hi
          have := List.mem_range'_1.1 hi
          omega
    · intro p hp
      rw [hlen]
      rcases List.mem_cons.1 hp with rfl | hmem
      · dsimp only; omega
      · have := hpaths p (List.mem_of_mem_filter hmem)
        omega

/-- `processScan` with a live target id preserves identifier liveness. -/
theorem liveIds_processScan (fs : FileSystem) (id : Nat)
    (rd : Except Unit (List StreamItem))
    (hl : liveIds fs = true) (hid : id < fs.folders.length) :
    liveIds (fs.processScan id rd) = true := by
  cases rd with
  | error e => exact hl
  | ok stream =>
    exact liveIds_initFolder fs id (scanFiles stream) (scanFolders stream)
      hl hid (scanFolders_children stream)

/-- Identifier liveness is preserved along any valid scan sequence. -/
theorem liveIds_applyScans (fs : FileSystem) (ops : List ScanOp)
    (hl : liveIds fs = true) (hv : validScans fs ops = true) :
    liveIds (applyScans fs ops) = true := by
  induction ops generalizing fs with
  | nil => exact hl
  | cons op ops ih =>
    rw [validScans, Bool.and_eq_true] at hv
    exact ih _ (liveIds_processScan fs op.id op.readDir hl
      (of_decide_eq_true hv.1)) hv.2

/-- **C9** Stale-identifier safety: starting from service construction,
after any sequence of scans whose targets are live when integrated (as
they always are in the program: `load_folder` receives ids that came from
the arena, and keys are never removed), every identifier stored in
`root`, in any folder's `child_folders`/`child_files`, or in
`folder_paths` is a live key of its store — each index is inside the
store, i.e. `get?` answers `some` and the panicking missing-key branch of
the arena lookups done by `load_folder`, `init_folder` and the render
traversal is unreachable. -/
theorem c9_stale_id_safety (root_path : RPath) (ops : List ScanOp)
    (hv : validScans (FileSystem.new root_path) ops = true) :
    liveIds (applyScans (FileSystem.new root_path) ops) = true :=
  liveIds_applyScans _ _ (liveIds_new root_path) hv

/-- A concrete valid scan sequence: scan the root (discovering `sub` and
`a.txt`), then scan the discovered subfolder id 1. -/
def exScanOps : List ScanOp :=
  [⟨0, Except.ok [Except.ok (some ⟨["r", "sub"], true⟩),
                  Except.ok (some ⟨["r", "a.txt"], false⟩)]⟩,
   ⟨1, Except.ok [Except.ok (some ⟨["r", "sub", "deep.txt"], false⟩)]⟩]

/-- **C9 witness**: liveness after a concrete two-scan history. -/
theorem c9_stale_id_safety_witness :
    validScans (FileSystem.new ["r"]) exScanOps = true ∧
    liveIds (applyScans (FileSystem.new ["r"]) exScanOps) = true :=
  ⟨by decide, c9_stale_id_safety ["r"] exScanOps (by decide)⟩

end Tui
